import Mathlib

/-!
Shallow embedding of `src/UnifiedLLMOrchestrator.ts` (ulysses-ai-core).

Modelling conventions:
* JavaScript `Map` iteration order is insertion order; the provider map is
  embedded as a `List LLMProvider` in insertion order, and `Map.get` as
  `List.find?` on the name key.
* `requestCounts` is a `Map<string, number>` read through `get(...) || 0`;
  it is embedded as a total function `String → Nat` (absent keys read 0).
  The reset loop `requestCounts.forEach((_, key) => set(key, 0))` zeroes
  every stored key, hence the constant-zero function.
* `Date` timestamps are `Nat` milliseconds.  Every `new Date()` /
  `Date.now()` reading inside one top-level call is modelled by the single
  `now` argument of that call (single-threaded call, one clock instant);
  consequently the `latency` field of a response computes to `0`.
* A thrown JavaScript exception is `Except.error`; a normal return is
  `Except.ok`.  `GenError.noProviderAvailable` is the
  `throw new Error('No LLM provider available')` at the top of `generate`;
  `GenError.invocationError` is a (re)thrown provider invocation failure.
* `callProvider` performs the external network call (a stub in the source);
  it is a parameter `invoke` of `generate`, returning `Except String String`.
* `generate` additionally returns the ordered list of provider names passed
  to `callProvider` (an observation trace of the external collaborator; it
  does not influence control flow).
* `temperature: 0.7` (an IEEE double in the source) is embedded as `Rat`.
-/

namespace Ulysses

/-- Latency class of a provider (`'low' | 'medium' | 'high'`). -/
inductive Latency where
  | low : Latency
  | medium : Latency
  | high : Latency
deriving DecidableEq, Repr

/-- Cost class of a provider (`'free' | 'low' | 'medium' | 'high'`). -/
inductive Cost where
  | free : Cost
  | low : Cost
  | medium : Cost
  | high : Cost
deriving DecidableEq, Repr

/-- Interface `LLMProvider` of the source. -/
structure LLMProvider where
  name : String
  endpoint : String
  model : String
  maxTokens : Nat
  temperature : Rat
  priority : Nat
  capabilities : List String
  rateLimit : Nat
  latency : Latency
  cost : Cost
deriving DecidableEq, Repr

/-- Interface `LLMRequest` of the source (optional fields as `Option`). -/
structure LLMRequest where
  prompt : String
  systemPrompt : Option String
  maxTokens : Option Nat
  temperature : Option Rat
  preferredProvider : Option String
  requiredCapabilities : Option (List String)
deriving DecidableEq, Repr

/-- Interface `LLMResponse` of the source. -/
structure LLMResponse where
  text : String
  provider : String
  model : String
  tokensUsed : Nat
  latency : Nat
  cached : Bool
deriving DecidableEq, Repr

/-- Mutable fields of class `UnifiedLLMOrchestrator`: the provider map
(insertion order), the `requestCounts` map (total function, absent keys 0)
and the single shared `lastReset` timestamp. -/
structure OrchestratorState where
  providers : List LLMProvider
  requestCounts : String → Nat
  lastReset : Nat

/-- JS truthiness of `request.preferredProvider` (line 238): present and not
the empty string. -/
def hasPreferred (req : LLMRequest) : Bool :=
  match req.preferredProvider with
  | some n => !(n == "")
  | none => false

/-- Guard `request.requiredCapabilities && request.requiredCapabilities.length > 0`
(line 246). -/
def hasRequiredCapabilities (req : LLMRequest) : Bool :=
  match req.requiredCapabilities with
  | some l => !l.isEmpty
  | none => false

/-- `this.providers.get(name)` (Map lookup by provider name). -/
def providersGet (s : OrchestratorState) (name : String) : Option LLMProvider :=
  s.providers.find? (fun p => p.name == name)

/-- Comparator of `getAvailableProviders` (line 226):
`(a, b) => a.priority - b.priority`, ascending priority. -/
def priorityLE (a b : LLMProvider) : Prop :=
  a.priority ≤ b.priority

instance : DecidableRel priorityLE :=
  fun a b => Nat.decLe a.priority b.priority

instance : IsTotal LLMProvider priorityLE :=
  ⟨fun a b => Nat.le_total a.priority b.priority⟩

instance : IsTrans LLMProvider priorityLE :=
  ⟨fun _ _ _ h1 h2 => Nat.le_trans h1 h2⟩

/-- `getAvailableProviders` (lines 224-227): the provider map values sorted
ascending by priority.  `Array.prototype.sort` is stable (ES2019), as is
`List.insertionSort`. -/
def getAvailableProviders (s : OrchestratorState) : List LLMProvider :=
  List.insertionSort priorityLE s.providers

/-- `isWithinRateLimit` (lines 270-280).  Resets every stored count to 0 and
`lastReset` to `now` when `now - lastReset > 60000`, then compares the
provider's count with its limit.  Returns the boolean together with the
(possibly mutated) state. -/
def isWithinRateLimit (s : OrchestratorState) (now : Nat) (p : LLMProvider) :
    Bool × OrchestratorState :=
  let s1 : OrchestratorState :=
    if now - s.lastReset > 60000 then
      { providers := s.providers, requestCounts := fun _ => 0, lastReset := now }
    else s
  (decide (s1.requestCounts p.name < p.rateLimit), s1)

/-- `recordRequest` (lines 285-288): increment the provider's count. -/
def recordRequest (s : OrchestratorState) (p : LLMProvider) : OrchestratorState :=
  { s with requestCounts :=
      fun n => if n = p.name then s.requestCounts p.name + 1 else s.requestCounts n }

/-- Loop of lines 247-254: first provider (in the given order) having every
required capability and passing the rate-limit check; rate-limit checks
thread their state mutation. -/
def findCapable (now : Nat) (caps : List String) :
    OrchestratorState → List LLMProvider → Option LLMProvider × OrchestratorState
  | s, [] => (none, s)
  | s, p :: rest =>
    if caps.all (fun c => p.capabilities.contains c) then
      let r := isWithinRateLimit s now p
      if r.1 then (some p, r.2) else findCapable now caps r.2 rest
    else findCapable now caps s rest

/-- Loop of lines 258-262 (also reused at lines 340-344): first provider in
the given order passing the rate-limit check. -/
def findAvailable (now : Nat) :
    OrchestratorState → List LLMProvider → Option LLMProvider × OrchestratorState
  | s, [] => (none, s)
  | s, p :: rest =>
    let r := isWithinRateLimit s now p
    if r.1 then (some p, r.2) else findAvailable now r.2 rest

/-- `selectProvider` (lines 232-265): preferred provider first (no capability
check), then the capability-filtered scan, then the plain priority scan;
`null` when the provider map is empty or every scan fails. -/
def selectProvider (s : OrchestratorState) (now : Nat) (req : LLMRequest) :
    Option LLMProvider × OrchestratorState :=
  let available := getAvailableProviders s
  if available.isEmpty then (none, s)
  else
    let step1 : Option LLMProvider × OrchestratorState :=
      if hasPreferred req then
        match providersGet s (req.preferredProvider.getD "") with
        | some preferred =>
          let r := isWithinRateLimit s now preferred
          (if r.1 then some preferred else none, r.2)
        | none => (none, s)
      else (none, s)
    match step1 with
    | (some p, s1) => (some p, s1)
    | (none, s1) =>
      let step2 : Option LLMProvider × OrchestratorState :=
        if hasRequiredCapabilities req then
          findCapable now (req.requiredCapabilities.getD []) s1 available
        else (none, s1)
      match step2 with
      | (some p, s2) => (some p, s2)
      | (none, s2) => findAvailable now s2 available

/-- `getFallbackProvider` (lines 336-346): scan the priority-sorted list
strictly after the current provider's index for a provider within its rate
limit.  `findIndex` returns `-1` when absent, in which case the loop starts
at index 0, i.e. scans the whole list. -/
def getFallbackProvider (s : OrchestratorState) (now : Nat) (current : LLMProvider) :
    Option LLMProvider × OrchestratorState :=
  let available := getAvailableProviders s
  match available.findIdx? (fun p => p.name == current.name) with
  | some i => findAvailable now s (available.drop (i + 1))
  | none => findAvailable now s available

/-- `estimateTokens` (lines 365-368): `Math.ceil(text.length / 4)`. -/
def estimateTokens (text : String) : Nat :=
  (text.length + 3) / 4

/-- Catalog entry 1 of `providerConfigs` (lines 63-74). -/
def claudeConfig : LLMProvider :=
  { name := "Claude"
    endpoint := "https://api.anthropic.com/v1/messages"
    model := "claude-3-opus-20240229"
    maxTokens := 4096
    temperature := 0.7
    priority := 1
    capabilities := ["reasoning", "coding", "analysis", "creative", "long-context"]
    rateLimit := 60
    latency := .medium
    cost := .high }

/-- Catalog entry 2 of `providerConfigs` (lines 75-86). -/
def openAIConfig : LLMProvider :=
  { name := "OpenAI"
    endpoint := "https://api.openai.com/v1/chat/completions"
    model := "gpt-4-turbo-preview"
    maxTokens := 4096
    temperature := 0.7
    priority := 2
    capabilities := ["reasoning", "coding", "analysis", "creative", "function-calling"]
    rateLimit := 60
    latency := .medium
    cost := .high }

/-- Catalog entry 3 of `providerConfigs` (lines 87-98). -/
def deepSeekConfig : LLMProvider :=
  { name := "DeepSeek"
    endpoint := "https://api.deepseek.com/v1/chat/completions"
    model := "deepseek-chat"
    maxTokens := 4096
    temperature := 0.7
    priority := 3
    capabilities := ["reasoning", "coding", "math", "analysis"]
    rateLimit := 100
    latency := .medium
    cost := .low }

/-- Catalog entry 4 of `providerConfigs` (lines 99-110). -/
def ollamaConfig : LLMProvider :=
  { name := "Ollama"
    endpoint := "http://localhost:11434/api/generate"
    model := "llama2"
    maxTokens := 4096
    temperature := 0.7
    priority := 4
    capabilities := ["reasoning", "coding", "local", "offline"]
    rateLimit := 1000
    latency := .low
    cost := .free }

/-- Catalog entry 5 of `providerConfigs` (lines 111-122). -/
def geminiConfig : LLMProvider :=
  { name := "Gemini"
    endpoint := "https://generativelanguage.googleapis.com/v1beta/models"
    model := "gemini-pro"
    maxTokens := 4096
    temperature := 0.7
    priority := 5
    capabilities := ["reasoning", "multimodal", "analysis", "vision"]
    rateLimit := 60
    latency := .medium
    cost := .medium }

/-- Catalog entry 11 of `providerConfigs` (lines 183-194). -/
def togetherAIConfig : LLMProvider :=
  { name := "TogetherAI"
    endpoint := "https://api.together.xyz/v1/chat/completions"
    model := "togethercomputer/llama-2-70b-chat"
    maxTokens := 4096
    temperature := 0.7
    priority := 11
    capabilities := ["fine-tuning", "custom-models", "reasoning"]
    rateLimit := 60
    latency := .medium
    cost := .low }

/-- Exceptions thrown by `generate`. -/
inductive GenError where
  | noProviderAvailable : GenError
  | invocationError : String → GenError
deriving DecidableEq, Repr

/-- Response record built at lines 306-313 / 320-327 (with the one-instant
clock model, `Date.now() - startTime` is 0). -/
def mkResponse (p : LLMProvider) (text : String) : LLMResponse :=
  { text := text
    provider := p.name
    model := p.model
    tokensUsed := estimateTokens text
    latency := 0
    cached := false }

/-- Result of one `generate` call: the returned value or thrown exception,
the final orchestrator state, and the trace of providers passed to
`callProvider` in order. -/
structure GenResult where
  outcome : Except GenError LLMResponse
  state : OrchestratorState
  attempted : List String

/-- `generate` (lines 293-331): select, record the request, invoke; on
invocation failure try the single fallback provider (uncharged); rethrow
when the fallback is absent, and let a failure of the fallback invocation
itself propagate. -/
def generate (invoke : LLMProvider → LLMRequest → Except String String)
    (s : OrchestratorState) (now : Nat) (req : LLMRequest) : GenResult :=
  match selectProvider s now req with
  | (none, s1) =>
    { outcome := .error .noProviderAvailable, state := s1, attempted := [] }
  | (some provider, s1) =>
    let s2 := recordRequest s1 provider
    match invoke provider req with
    | .ok text =>
      { outcome := .ok (mkResponse provider text), state := s2
        attempted := [provider.name] }
    | .error err =>
      match getFallbackProvider s2 now provider with
      | (some fallback, s3) =>
        match invoke fallback req with
        | .ok text =>
          { outcome := .ok (mkResponse fallback text), state := s3
            attempted := [provider.name, fallback.name] }
        | .error err2 =>
          { outcome := .error (.invocationError err2), state := s3
            attempted := [provider.name, fallback.name] }
      | (none, s3) =>
        { outcome := .error (.invocationError err), state := s3
          attempted := [provider.name] }

/-- Steady-state rate invariant of the spec: every registered provider's
count lies between 0 and its limit (the lower bound is inherent to `Nat`). -/
def CountsOk (s : OrchestratorState) : Prop :=
  ∀ p ∈ s.providers, s.requestCounts p.name ≤ p.rateLimit

/-- Registry holding the first three catalog providers, no requests recorded,
window started at time 0. -/
def threeProviderState : OrchestratorState :=
  { providers := [claudeConfig, openAIConfig, deepSeekConfig]
    requestCounts := fun _ => 0
    lastReset := 0 }

/-- Registry holding only Claude, idle. -/
def claudeOnlyState : OrchestratorState :=
  { providers := [claudeConfig]
    requestCounts := fun _ => 0
    lastReset := 0 }

/-- Registry holding Claude and Gemini, idle. -/
def claudeGeminiState : OrchestratorState :=
  { providers := [claudeConfig, geminiConfig]
    requestCounts := fun _ => 0
    lastReset := 0 }

/-- Registry holding Claude and TogetherAI, idle. -/
def claudeTogetherState : OrchestratorState :=
  { providers := [claudeConfig, togetherAIConfig]
    requestCounts := fun _ => 0
    lastReset := 0 }

/-- Registry with nonzero counts on both providers, window started at 0. -/
def busyState : OrchestratorState :=
  { providers := [claudeConfig, openAIConfig]
    requestCounts := fun n => if n = "Claude" then 5 else if n = "OpenAI" then 7 else 0
    lastReset := 0 }

/-- Registry holding only Claude with its budget fully consumed (60 of 60). -/
def limitedState : OrchestratorState :=
  { providers := [claudeConfig]
    requestCounts := fun n => if n = "Claude" then 60 else 0
    lastReset := 0 }

/-- Request with no preferences and no capability requirements. -/
def plainRequest : LLMRequest :=
  { prompt := "hello"
    systemPrompt := none
    maxTokens := none
    temperature := none
    preferredProvider := none
    requiredCapabilities := none }

/-- Request requiring the capability "vision". -/
def visionRequest : LLMRequest :=
  { plainRequest with requiredCapabilities := some ["vision"] }

/-- Request preferring the lowest-priority catalog provider. -/
def preferTogetherRequest : LLMRequest :=
  { plainRequest with preferredProvider := some "TogetherAI" }

/-- Request preferring Claude while requiring "vision" (which Claude lacks). -/
def preferClaudeVisionRequest : LLMRequest :=
  { plainRequest with
      preferredProvider := some "Claude"
      requiredCapabilities := some ["vision"] }

/-- External collaborator whose invocations all fail. -/
def alwaysFail : LLMProvider → LLMRequest → Except String String :=
  fun _ _ => .error "boom"

/-- External collaborator failing for every provider except DeepSeek. -/
def failExceptDeepSeek : LLMProvider → LLMRequest → Except String String :=
  fun p _ => if p.name == "DeepSeek" then .ok "recovered" else .error "boom"

/-! Basic lemmas about `isWithinRateLimit` and `recordRequest`. -/

theorem iwrl_providers (s : OrchestratorState) (now : Nat) (p : LLMProvider) :
    (isWithinRateLimit s now p).2.providers = s.providers := by
  unfold isWithinRateLimit
  dsimp only
  split <;> rfl

theorem iwrl_lastReset (s : OrchestratorState) (now : Nat) (p : LLMProvider) :
    now - (isWithinRateLimit s now p).2.lastReset ≤ 60000 := by
  unfold isWithinRateLimit
  dsimp only
  split
  · simp
  · omega

theorem iwrl_counts_le (s : OrchestratorState) (now : Nat) (p : LLMProvider) (n : String) :
    (isWithinRateLimit s now p).2.requestCounts n ≤ s.requestCounts n := by
  unfold isWithinRateLimit
  dsimp only
  split
  · exact Nat.zero_le _
  · exact Nat.le_refl _

theorem iwrl_true_lt (s : OrchestratorState) (now : Nat) (p : LLMProvider)
    (h : (isWithinRateLimit s now p).1 = true) :
    (isWithinRateLimit s now p).2.requestCounts p.name < p.rateLimit := by
  unfold isWithinRateLimit at h ⊢
  dsimp only at h ⊢
  exact of_decide_eq_true h

theorem iwrl_inWindow (s : OrchestratorState) (now : Nat) (p : LLMProvider)
    (h : now - s.lastReset ≤ 60000) :
    isWithinRateLimit s now p = (decide (s.requestCounts p.name < p.rateLimit), s) := by
  unfold isWithinRateLimit
  dsimp only
  rw [if_neg (by omega)]

theorem recordRequest_name (s : OrchestratorState) (p : LLMProvider) :
    (recordRequest s p).requestCounts p.name = s.requestCounts p.name + 1 := by
  unfold recordRequest
  simp

theorem recordRequest_other (s : OrchestratorState) (p : LLMProvider) (n : String)
    (h : n ≠ p.name) :
    (recordRequest s p).requestCounts n = s.requestCounts n := by
  unfold recordRequest
  simp [h]

theorem recordRequest_providers (s : OrchestratorState) (p : LLMProvider) :
    (recordRequest s p).providers = s.providers := rfl

theorem recordRequest_lastReset (s : OrchestratorState) (p : LLMProvider) :
    (recordRequest s p).lastReset = s.lastReset := rfl

/-! Lemmas about the two scanning loops. -/

theorem fa_providers (now : Nat) (l : List LLMProvider) :
    ∀ s, (findAvailable now s l).2.providers = s.providers := by
  induction l with
  | nil => intro s; rfl
  | cons q rest ih =>
    intro s
    simp only [findAvailable]
    split
    · exact iwrl_providers s now q
    · rw [ih]; exact iwrl_providers s now q

theorem fa_counts_le (now : Nat) (l : List LLMProvider) :
    ∀ s n, (findAvailable now s l).2.requestCounts n ≤ s.requestCounts n := by
  induction l with
  | nil => intro s n; exact Nat.le_refl _
  | cons q rest ih =>
    intro s n
    simp only [findAvailable]
    split
    · exact iwrl_counts_le s now q n
    · exact Nat.le_trans (ih _ n) (iwrl_counts_le s now q n)

theorem fa_some (now : Nat) (l : List LLMProvider) :
    ∀ s p s', findAvailable now s l = (some p, s') →
      p ∈ l ∧ s'.requestCounts p.name < p.rateLimit ∧ now - s'.lastReset ≤ 60000 := by
  induction l with
  | nil =>
    intro s p s' h
    simp [findAvailable] at h
  | cons q rest ih =>
    intro s p s' h
    simp only [findAvailable] at h
    by_cases hb : (isWithinRateLimit s now q).1 = true
    · rw [if_pos hb, Prod.mk.injEq] at h
      obtain ⟨h1, h2⟩ := h
      obtain rfl : q = p := Option.some.inj h1
      refine ⟨List.mem_cons_self q rest, ?_, ?_⟩
      · rw [← h2]; exact iwrl_true_lt s now q hb
      · rw [← h2]; exact iwrl_lastReset s now q
    · rw [if_neg hb] at h
      obtain ⟨hm, hlt, hlr⟩ := ih _ p s' h
      exact ⟨List.mem_cons_of_mem q hm, hlt, hlr⟩

theorem fa_inWindow (now : Nat) (l : List LLMProvider) :
    ∀ s, now - s.lastReset ≤ 60000 →
      findAvailable now s l =
        (l.find? (fun p => decide (s.requestCounts p.name < p.rateLimit)), s) := by
  induction l with
  | nil => intro s _; rfl
  | cons q rest ih =>
    intro s hw
    simp only [findAvailable, iwrl_inWindow s now q hw]
    by_cases hb : s.requestCounts q.name < q.rateLimit
    · rw [if_pos (by simpa using hb), List.find?_cons_of_pos _ (by simpa using hb)]
    · rw [if_neg (by simpa using hb), List.find?_cons_of_neg _ (by simpa using hb)]
      exact ih s hw

theorem fc_providers (now : Nat) (caps : List String) (l : List LLMProvider) :
    ∀ s, (findCapable now caps s l).2.providers = s.providers := by
  induction l with
  | nil => intro s; rfl
  | cons q rest ih =>
    intro s
    simp only [findCapable]
    split
    · split
      · exact iwrl_providers s now q
      · rw [ih]; exact iwrl_providers s now q
    · exact ih s

theorem fc_counts_le (now : Nat) (caps : List String) (l : List LLMProvider) :
    ∀ s n, (findCapable now caps s l).2.requestCounts n ≤ s.requestCounts n := by
  induction l with
  | nil => intro s n; exact Nat.le_refl _
  | cons q rest ih =>
    intro s n
    simp only [findCapable]
    split
    · split
      · exact iwrl_counts_le s now q n
      · exact Nat.le_trans (ih _ n) (iwrl_counts_le s now q n)
    · exact ih s n

theorem fc_some (now : Nat) (caps : List String) (l : List LLMProvider) :
    ∀ s p s', findCapable now caps s l = (some p, s') →
      p ∈ l ∧ caps.all (fun c => p.capabilities.contains c) = true ∧
        s'.requestCounts p.name < p.rateLimit ∧ now - s'.lastReset ≤ 60000 := by
  induction l with
  | nil =>
    intro s p s' h
    simp [findCapable] at h
  | cons q rest ih =>
    intro s p s' h
    simp only [findCapable] at h
    by_cases hc : caps.all (fun c => q.capabilities.contains c) = true
    · rw [if_pos hc] at h
      by_cases hb : (isWithinRateLimit s now q).1 = true
      · rw [if_pos hb, Prod.mk.injEq] at h
        obtain ⟨h1, h2⟩ := h
        obtain rfl : q = p := Option.some.inj h1
        refine ⟨List.mem_cons_self q rest, hc, ?_, ?_⟩
        · rw [← h2]; exact iwrl_true_lt s now q hb
        · rw [← h2]; exact iwrl_lastReset s now q
      · rw [if_neg hb] at h
        obtain ⟨hm, hca, hlt, hlr⟩ := ih _ p s' h
        exact ⟨List.mem_cons_of_mem q hm, hca, hlt, hlr⟩
    · rw [if_neg hc] at h
      obtain ⟨hm, hca, hlt, hlr⟩ := ih _ p s' h
      exact ⟨List.mem_cons_of_mem q hm, hca, hlt, hlr⟩

theorem fc_inWindow (now : Nat) (caps : List String) (l : List LLMProvider) :
    ∀ s, now - s.lastReset ≤ 60000 →
      findCapable now caps s l =
        (l.find? (fun p => caps.all (fun c => p.capabilities.contains c) &&
          decide (s.requestCounts p.name < p.rateLimit)), s) := by
  induction l with
  | nil => intro s _; rfl
  | cons q rest ih =>
    intro s hw
    simp only [findCapable, iwrl_inWindow s now q hw]
    by_cases hc : caps.all (fun c => q.capabilities.contains c) = true
    · rw [if_pos hc]
      by_cases hb : s.requestCounts q.name < q.rateLimit
      · rw [if_pos (by simpa using hb),
          List.find?_cons_of_pos _ (by rw [hc, Bool.true_and]; simpa using hb)]
      · rw [if_neg (by simpa using hb),
          List.find?_cons_of_neg _ (by rw [hc, Bool.true_and]; simpa using hb)]
        exact ih s hw
    · rw [if_neg hc,
        List.find?_cons_of_neg _ (by simp only [Bool.and_eq_true]; exact fun h => hc h.1)]
      exact ih s hw

/-! Lemmas about `selectProvider`. -/

theorem sp_state (s : OrchestratorState) (now : Nat) (req : LLMRequest) :
    (selectProvider s now req).2.providers = s.providers ∧
      (∀ n, (selectProvider s now req).2.requestCounts n ≤ s.requestCounts n) := by
  unfold selectProvider
  dsimp only
  split
  · exact ⟨rfl, fun n => Nat.le_refl _⟩
  · split
    · rename_i p1 s1 hs1
      split at hs1
      · split at hs1
        · rename_i preferred heq
          have h2 := congrArg Prod.snd hs1
          dsimp only at h2
          rw [← h2]
          exact ⟨iwrl_providers s now preferred, fun n => iwrl_counts_le s now preferred n⟩
        · simp at hs1
      · simp at hs1
    · rename_i s1 hs1
      have hbase : s1.providers = s.providers ∧
          ∀ n, s1.requestCounts n ≤ s.requestCounts n := by
        split at hs1
        · split at hs1
          · rename_i preferred heq
            have h2 := congrArg Prod.snd hs1
            dsimp only at h2
            rw [← h2]
            exact ⟨iwrl_providers s now preferred, fun n => iwrl_counts_le s now preferred n⟩
          · have h2 := congrArg Prod.snd hs1
            dsimp only at h2
            rw [← h2]
            exact ⟨rfl, fun n => Nat.le_refl _⟩
        · have h2 := congrArg Prod.snd hs1
          dsimp only at h2
          rw [← h2]
          exact ⟨rfl, fun n => Nat.le_refl _⟩
      split
      · rename_i p2 s2 hs2
        split at hs2
        · have h2 := congrArg Prod.snd hs2
          dsimp only at h2
          rw [← h2]
          refine ⟨?_, fun n => ?_⟩
          · rw [fc_providers]; exact hbase.1
          · exact Nat.le_trans (fc_counts_le _ _ _ _ n) (hbase.2 n)
        · simp at hs2
      · rename_i s2 hs2
        have hbase2 : s2.providers = s.providers ∧
            ∀ n, s2.requestCounts n ≤ s.requestCounts n := by
          split at hs2
          · have h2 := congrArg Prod.snd hs2
            dsimp only at h2
            rw [← h2]
            refine ⟨?_, fun n => ?_⟩
            · rw [fc_providers]; exact hbase.1
            · exact Nat.le_trans (fc_counts_le _ _ _ _ n) (hbase.2 n)
          · have h2 := congrArg Prod.snd hs2
            dsimp only at h2
            rw [← h2]
            exact hbase
        refine ⟨?_, fun n => ?_⟩
        · rw [fa_providers]; exact hbase2.1
        · exact Nat.le_trans (fa_counts_le _ _ _ n) (hbase2.2 n)

theorem sp_inWindow (s : OrchestratorState) (now : Nat) (req : LLMRequest)
    (hw : now - s.lastReset ≤ 60000) :
    (selectProvider s now req).2 = s := by
  unfold selectProvider
  dsimp only
  split
  · rfl
  · split
    · rename_i p1 s1 hs1
      split at hs1
      · split at hs1
        · rename_i preferred heq
          rw [iwrl_inWindow s now preferred hw] at hs1
          have h2 := congrArg Prod.snd hs1
          dsimp only at h2
          exact h2.symm
        · simp at hs1
      · simp at hs1
    · rename_i s1 hs1
      have hs1' : s1 = s := by
        split at hs1
        · split at hs1
          · rename_i preferred heq
            rw [iwrl_inWindow s now preferred hw] at hs1
            have h2 := congrArg Prod.snd hs1
            dsimp only at h2
            exact h2.symm
          · have h2 := congrArg Prod.snd hs1
            dsimp only at h2
            exact h2.symm
        · have h2 := congrArg Prod.snd hs1
          dsimp only at h2
          exact h2.symm
      subst hs1'
      split
      · rename_i p2 s2 hs2
        split at hs2
        · rw [fc_inWindow now _ _ s1 hw] at hs2
          have h2 := congrArg Prod.snd hs2
          dsimp only at h2
          exact h2.symm
        · simp at hs2
      · rename_i s2 hs2
        have hs2' : s2 = s1 := by
          split at hs2
          · rw [fc_inWindow now _ _ s1 hw] at hs2
            have h2 := congrArg Prod.snd hs2
            dsimp only at h2
            exact h2.symm
          · have h2 := congrArg Prod.snd hs2
            dsimp only at h2
            exact h2.symm
        subst hs2'
        rw [fa_inWindow now _ s2 hw]

theorem sp_some (s : OrchestratorState) (now : Nat) (req : LLMRequest)
    (p : LLMProvider) (s' : OrchestratorState)
    (h : selectProvider s now req = (some p, s')) :
    p ∈ s.providers ∧ s'.requestCounts p.name < p.rateLimit ∧
      now - s'.lastReset ≤ 60000 := by
  unfold selectProvider at h
  dsimp only at h
  split at h
  · simp at h
  · split at h
    · rename_i p1 s1 hs1
      rw [Prod.mk.injEq] at h
      obtain ⟨h1, h2⟩ := h
      split at hs1
      · split at hs1
        · rename_i preferred heq
          have hf := congrArg Prod.fst hs1
          have hs := congrArg Prod.snd hs1
          dsimp only at hf hs
          by_cases hb : (isWithinRateLimit s now preferred).1 = true
          · rw [if_pos hb] at hf
            have hpp : preferred = p := Option.some.inj (hf.trans h1)
            have hss : (isWithinRateLimit s now preferred).2 = s' := hs.trans h2
            rw [← hpp, ← hss]
            refine ⟨?_, iwrl_true_lt s now preferred hb, iwrl_lastReset s now preferred⟩
            unfold providersGet at heq
            exact List.mem_of_find?_eq_some heq
          · rw [if_neg hb] at hf
            simp at hf
        · simp at hs1
      · simp at hs1
    · rename_i s1 hs1
      split at h
      · rename_i p2 s2 hs2
        rw [Prod.mk.injEq] at h
        obtain ⟨h1, h2⟩ := h
        have hpp : p2 = p := Option.some.inj h1
        rw [← hpp, ← h2]
        split at hs2
        · obtain ⟨hm, hcaps, hlt, hlr⟩ := fc_some now _ _ s1 p2 s2 hs2
          refine ⟨?_, hlt, hlr⟩
          simpa [getAvailableProviders] using hm
        · simp at hs2
      · rename_i s2 hs2
        obtain ⟨hm, hlt, hlr⟩ := fa_some now _ s2 p s' h
        refine ⟨?_, hlt, hlr⟩
        simpa [getAvailableProviders] using hm

theorem sp_plain (s : OrchestratorState) (now : Nat) (req : LLMRequest)
    (h1 : hasPreferred req = false) (h2 : hasRequiredCapabilities req = false)
    (h3 : (getAvailableProviders s).isEmpty = false) :
    selectProvider s now req = findAvailable now s (getAvailableProviders s) := by
  unfold selectProvider
  simp [h1, h2, h3]

theorem sp_preferred (s : OrchestratorState) (now : Nat) (req : LLMRequest)
    (p : LLMProvider)
    (h1 : hasPreferred req = true)
    (h2 : providersGet s (req.preferredProvider.getD "") = some p)
    (h3 : (isWithinRateLimit s now p).1 = true) :
    selectProvider s now req = (some p, (isWithinRateLimit s now p).2) := by
  have hp : p ∈ s.providers := by
    unfold providersGet at h2
    exact List.mem_of_find?_eq_some h2
  have hne : (getAvailableProviders s).isEmpty = false := by
    have hm : p ∈ getAvailableProviders s := by
      simpa [getAvailableProviders] using hp
    cases hl : getAvailableProviders s with
    | nil => rw [hl] at hm; simp at hm
    | cons a l => rfl
  unfold selectProvider
  simp [h1, h2, h3, hne]

theorem sp_caps_finds (s : OrchestratorState) (now : Nat) (req : LLMRequest)
    (q : LLMProvider)
    (h1 : hasPreferred req = false) (h2 : hasRequiredCapabilities req = true)
    (hw : now - s.lastReset ≤ 60000)
    (hne : (getAvailableProviders s).isEmpty = false)
    (hfind : (getAvailableProviders s).find?
        (fun p => (req.requiredCapabilities.getD []).all
            (fun c => p.capabilities.contains c) &&
          decide (s.requestCounts p.name < p.rateLimit)) = some q) :
    selectProvider s now req = (some q, s) := by
  unfold selectProvider
  simp only [hne, Bool.false_eq_true, if_false, h1, h2, if_true]
  rw [fc_inWindow now _ _ s hw, hfind]

theorem gfp_inWindow (s : OrchestratorState) (now : Nat) (cur : LLMProvider)
    (hw : now - s.lastReset ≤ 60000) :
    (getFallbackProvider s now cur).2 = s := by
  unfold getFallbackProvider
  dsimp only
  split
  · rw [fa_inWindow now _ s hw]
  · rw [fa_inWindow now _ s hw]

theorem gfp_some_later (s : OrchestratorState) (now : Nat) (cur : LLMProvider)
    (i : Nat) (fb : LLMProvider) (s' : OrchestratorState)
    (hidx : (getAvailableProviders s).findIdx? (fun p => p.name == cur.name) = some i)
    (h : getFallbackProvider s now cur = (some fb, s')) :
    fb ∈ (getAvailableProviders s).drop (i + 1) := by
  unfold getFallbackProvider at h
  dsimp only at h
  rw [hidx] at h
  exact (fa_some now _ s fb s' h).1

theorem generate_state (invoke : LLMProvider → LLMRequest → Except String String)
    (s : OrchestratorState) (now : Nat) (req : LLMRequest)
    (p : LLMProvider) (s1 : OrchestratorState)
    (hsel : selectProvider s now req = (some p, s1)) :
    (generate invoke s now req).state = recordRequest s1 p := by
  have hw2 : now - (recordRequest s1 p).lastReset ≤ 60000 := by
    rw [recordRequest_lastReset]
    exact (sp_some s now req p s1 hsel).2.2
  unfold generate
  rw [hsel]
  dsimp only
  cases hi : invoke p req with
  | ok t => rfl
  | error e =>
    dsimp only
    rcases hg : getFallbackProvider (recordRequest s1 p) now p with ⟨o, st⟩
    have hst : st = recordRequest s1 p := by
      have hgw := gfp_inWindow (recordRequest s1 p) now p hw2
      rw [hg] at hgw
      exact hgw
    cases o with
    | some fb =>
      dsimp only
      cases hi2 : invoke fb req with
      | ok t2 => exact hst
      | error e2 => exact hst
    | none => exact hst

theorem isEmpty_false_of_mem {α : Type} {l : List α} {x : α} (h : x ∈ l) :
    l.isEmpty = false := by
  cases l with
  | nil => cases h
  | cons a t => rfl

theorem name_nodup_inj (l : List LLMProvider)
    (hnd : (l.map LLMProvider.name).Nodup) (p q : LLMProvider)
    (hp : p ∈ l) (hq : q ∈ l) (h : p.name = q.name) : p = q :=
  List.inj_on_of_nodup_map hnd hp hq h

/-! Claims. -/

/-- C1: evaluation of the code at the claim's scenario.  With the three
highest-priority catalog providers enabled and every invocation failing,
`generate` passes exactly two providers to `callProvider` — the selected
one and a single fallback — and rethrows the fallback's failure; it does
not attempt all three enabled providers and produces no exhaustion value
listing them. -/
theorem C1_three_failing_providers_two_attempts :
    (generate alwaysFail threeProviderState 1000 plainRequest).attempted =
        ["Claude", "OpenAI"] ∧
      (generate alwaysFail threeProviderState 1000 plainRequest).attempted.length = 2 ∧
      (generate alwaysFail threeProviderState 1000 plainRequest).outcome =
        Except.error (GenError.invocationError "boom") :=
  ⟨rfl, rfl, rfl⟩

/-- C2 counterexample: a request requiring capability "vision" against a
registry whose only enabled provider (Claude) lacks "vision" is still
routed to that provider — the capability scan finds nothing and control
falls through to the plain priority scan — instead of returning null. -/
theorem C2_counterexample :
    (selectProvider claudeOnlyState 1000 visionRequest).1 = some claudeConfig ∧
      claudeConfig.capabilities.contains "vision" = false :=
  ⟨rfl, rfl⟩

/-- C2 amended: the capability guarantee holds exactly on the
capability-scan path: when no preferred provider is set and some enabled,
within-rate-limit provider has every required capability, the selected
provider has every required capability (the first such in priority order).
When no such provider exists, selection falls through to the plain priority
scan and may return a provider lacking a required capability, and the
preferred-provider path never checks capabilities. -/
theorem C2_capable_provider_selected_when_one_exists
    (s : OrchestratorState) (now : Nat) (req : LLMRequest) (q : LLMProvider)
    (h1 : hasPreferred req = false) (h2 : hasRequiredCapabilities req = true)
    (hw : now - s.lastReset ≤ 60000)
    (hfind : (getAvailableProviders s).find?
        (fun p => (req.requiredCapabilities.getD []).all
            (fun c => p.capabilities.contains c) &&
          decide (s.requestCounts p.name < p.rateLimit)) = some q) :
    selectProvider s now req = (some q, s) ∧
      (req.requiredCapabilities.getD []).all
        (fun c => q.capabilities.contains c) = true := by
  have hne : (getAvailableProviders s).isEmpty = false :=
    isEmpty_false_of_mem (List.mem_of_find?_eq_some hfind)
  refine ⟨sp_caps_finds s now req q h1 h2 hw hne hfind, ?_⟩
  have hq := List.find?_some hfind
  exact (Bool.and_eq_true _ _ |>.mp hq).1

/-- C2 witness: a vision request over Claude + Gemini selects Gemini, which
has every required capability. -/
theorem C2_capable_provider_witness :
    selectProvider claudeGeminiState 1000 visionRequest =
        (some geminiConfig, claudeGeminiState) ∧
      (visionRequest.requiredCapabilities.getD []).all
        (fun c => geminiConfig.capabilities.contains c) = true :=
  C2_capable_provider_selected_when_one_exists claudeGeminiState 1000 visionRequest
    geminiConfig rfl rfl (by decide) rfl

/-- C3 counterexample: with Claude, OpenAI and DeepSeek enabled, where
DeepSeek's invocation would succeed but Claude's and OpenAI's fail,
`generate` surfaces the second failure to the caller (a thrown exception in
the source) without ever advancing to DeepSeek: intermediate failures are
not always recovered locally, and exhaustion is not returned as a typed
terminal outcome. -/
theorem C3_counterexample :
    (generate failExceptDeepSeek threeProviderState 1000 plainRequest).outcome =
        Except.error (GenError.invocationError "boom") ∧
      (generate failExceptDeepSeek threeProviderState 1000 plainRequest).attempted =
        ["Claude", "OpenAI"] :=
  ⟨rfl, rfl⟩

/-- C3 amended: `generate` throws rather than returning a typed exhaustion
outcome: whenever every invocation fails it surfaces an exception — the
no-provider error when selection returns null, or a provider failure
otherwise — and failure recovery is limited to one single fallback
attempt. -/
theorem C3_all_invocations_fail_generate_throws
    (invoke : LLMProvider → LLMRequest → Except String String)
    (s : OrchestratorState) (now : Nat) (req : LLMRequest)
    (hfail : ∀ p r, ∃ e, invoke p r = Except.error e) :
    ∃ g, (generate invoke s now req).outcome = Except.error g := by
  unfold generate
  rcases hsel : selectProvider s now req with ⟨o, s1⟩
  cases o with
  | none => exact ⟨.noProviderAvailable, rfl⟩
  | some p =>
    dsimp only
    obtain ⟨e, he⟩ := hfail p req
    rw [he]
    dsimp only
    rcases hg : getFallbackProvider (recordRequest s1 p) now p with ⟨o2, s3⟩
    cases o2 with
    | some fb =>
      obtain ⟨e2, he2⟩ := hfail fb req
      dsimp only
      rw [he2]
      exact ⟨.invocationError e2, rfl⟩
    | none => exact ⟨.invocationError e, rfl⟩

/-- C3 witness: the amended statement at the all-failing scenario. -/
theorem C3_all_invocations_fail_witness :
    ∃ g, (generate alwaysFail threeProviderState 1000 plainRequest).outcome =
      Except.error g :=
  C3_all_invocations_fail_generate_throws alwaysFail threeProviderState 1000
    plainRequest (fun _ _ => ⟨"boom", rfl⟩)

/-- C4 counterexample: selection returns Claude but consumes no admission
slot — the returned state still records 0 requests for Claude, not 1. -/
theorem C4_counterexample :
    (selectProvider threeProviderState 1000 plainRequest).1 = some claudeConfig ∧
      (selectProvider threeProviderState 1000 plainRequest).2.requestCounts "Claude" = 0 :=
  ⟨rfl, rfl⟩

/-- C4 amended: admission and selection are separate: within the current
window `selectProvider` leaves the state unchanged, and the single
increment is the distinct `recordRequest` step `generate` performs on the
selected provider right after selection, touching no other provider's
count. -/
theorem C4_selection_pure_increment_separate
    (s : OrchestratorState) (now : Nat) (req : LLMRequest)
    (p : LLMProvider) (s1 : OrchestratorState)
    (hw : now - s.lastReset ≤ 60000)
    (hsel : selectProvider s now req = (some p, s1)) :
    s1 = s ∧
      ∀ invoke : LLMProvider → LLMRequest → Except String String,
        (generate invoke s now req).state.requestCounts p.name =
            s.requestCounts p.name + 1 ∧
          ∀ n, n ≠ p.name →
            (generate invoke s now req).state.requestCounts n = s.requestCounts n := by
  have hs1 : s1 = s := by
    have h := sp_inWindow s now req hw
    rw [hsel] at h
    exact h
  refine ⟨hs1, fun invoke => ?_⟩
  rw [generate_state invoke s now req p s1 hsel, hs1]
  exact ⟨recordRequest_name s p, fun n hn => recordRequest_other s p n hn⟩

/-- C4 witness: the amended statement at the three-provider scenario. -/
theorem C4_selection_pure_witness :
    (generate alwaysFail threeProviderState 1000 plainRequest).state.requestCounts
        "Claude" = 1 ∧
      (generate alwaysFail threeProviderState 1000 plainRequest).state.requestCounts
        "DeepSeek" = 0 := by
  have h := C4_selection_pure_increment_separate threeProviderState 1000 plainRequest
    claudeConfig threeProviderState (by decide) rfl
  exact ⟨(h.2 alwaysFail).1, (h.2 alwaysFail).2 "DeepSeek" (by decide)⟩

/-- C5 counterexample: window state is not per-provider: an admission check
on Claude at time 60001 resets OpenAI's count from 7 to 0, and at exactly
60000 elapsed (the claim's `>= 60s` boundary) no reset happens at all. -/
theorem C5_counterexample :
    busyState.requestCounts "OpenAI" = 7 ∧
      (isWithinRateLimit busyState 60001 claudeConfig).2.requestCounts "OpenAI" = 0 ∧
      (isWithinRateLimit busyState 60000 claudeConfig).2.requestCounts "OpenAI" = 7 :=
  ⟨rfl, rfl, rfl⟩

/-- C5 amended: the rate window is global: one `lastReset` shared by all
providers; an admission check on any provider with `now - lastReset`
strictly greater than 60000 ms zeroes every provider's count and sets the
shared `lastReset` to `now`, while a check within 60000 ms leaves the whole
state untouched. -/
theorem C5_global_window (s : OrchestratorState) (now : Nat) (p : LLMProvider)
    (n : String) :
    (60000 < now - s.lastReset →
      (isWithinRateLimit s now p).2.requestCounts n = 0 ∧
        (isWithinRateLimit s now p).2.lastReset = now) ∧
    (now - s.lastReset ≤ 60000 → (isWithinRateLimit s now p).2 = s) := by
  constructor
  · intro h
    unfold isWithinRateLimit
    dsimp only
    rw [if_pos h]
    exact ⟨rfl, rfl⟩
  · intro h
    rw [iwrl_inWindow s now p h]

/-- C5 witness: the global reset at the counterexample's input. -/
theorem C5_global_window_witness :
    (isWithinRateLimit busyState 60001 claudeConfig).2.requestCounts "OpenAI" = 0 ∧
      (isWithinRateLimit busyState 60001 claudeConfig).2.lastReset = 60001 :=
  (C5_global_window busyState 60001 claudeConfig "OpenAI").1 (by decide)

/-- C6: steady-state rate invariant and monotonic admission.  With distinct
provider names (a `Map` key property), `generate` preserves
`0 ≤ count ≤ limit` for every registered provider — the only increment is
applied to a provider that passed the admission check in the same call —
and once a provider's count has reached its limit, an admission check
within the same window returns false and leaves the state unchanged, so
every further check in that window returns false as well. -/
theorem C6_invariant_and_monotonic
    (invoke : LLMProvider → LLMRequest → Except String String)
    (s : OrchestratorState) (now : Nat) (req : LLMRequest) (p : LLMProvider)
    (hnd : (s.providers.map LLMProvider.name).Nodup)
    (hinv : CountsOk s) :
    CountsOk (generate invoke s now req).state ∧
      (p.rateLimit ≤ s.requestCounts p.name → now - s.lastReset ≤ 60000 →
        isWithinRateLimit s now p = (false, s)) := by
  constructor
  · obtain ⟨hpr, hct⟩ := sp_state s now req
    rcases hsel : selectProvider s now req with ⟨o, s1⟩
    rw [hsel] at hpr hct
    dsimp only at hpr hct
    cases o with
    | none =>
      have hstate : (generate invoke s now req).state = s1 := by
        unfold generate
        rw [hsel]
      rw [hstate]
      intro q hq
      rw [hpr] at hq
      exact Nat.le_trans (hct q.name) (hinv q hq)
    | some p1 =>
      have hstate := generate_state invoke s now req p1 s1 hsel
      rw [hstate]
      obtain ⟨hmem, hlt, _⟩ := sp_some s now req p1 s1 hsel
      intro q hq
      rw [recordRequest_providers, hpr] at hq
      by_cases hqn : q.name = p1.name
      · have hqe : q = p1 := name_nodup_inj s.providers hnd q p1 hq hmem hqn
        rw [hqn, recordRequest_name, hqe]
        exact hlt
      · rw [recordRequest_other s1 p1 q.name hqn]
        exact Nat.le_trans (hct q.name) (hinv q hq)
  · intro hge hw
    rw [iwrl_inWindow s now p hw, Prod.mk.injEq]
    exact ⟨by simp [Nat.not_lt.mpr hge], rfl⟩

/-- C6 witness: the invariant after a `generate` against a fully consumed
Claude budget (60 of 60), and the admission check rejecting in-window. -/
theorem C6_invariant_witness :
    CountsOk (generate alwaysFail limitedState 1000 plainRequest).state ∧
      isWithinRateLimit limitedState 1000 claudeConfig = (false, limitedState) := by
  have h := C6_invariant_and_monotonic alwaysFail limitedState 1000 plainRequest
    claudeConfig (by decide) (by unfold CountsOk; decide)
  exact ⟨h.1, h.2 (by decide) (by decide)⟩

/-- C7: with no preferred provider and no required capabilities, against a
registry where every enabled provider is within its rate limit, selection
returns the head of the priority-sorted enabled list, which has the
minimal priority value among enabled providers; that list is sorted
ascending by priority and is a permutation of the registry (and, being a
pure function of the registry, deterministic). -/
theorem C7_lowest_priority_selected
    (s : OrchestratorState) (now : Nat) (req : LLMRequest)
    (hw : now - s.lastReset ≤ 60000)
    (h1 : hasPreferred req = false) (h2 : hasRequiredCapabilities req = false)
    (hne : s.providers ≠ [])
    (hfree : ∀ p ∈ s.providers, s.requestCounts p.name < p.rateLimit) :
    List.Sorted priorityLE (getAvailableProviders s) ∧
      (getAvailableProviders s).Perm s.providers ∧
      ∃ p, selectProvider s now req = (some p, s) ∧
        (getAvailableProviders s).head? = some p ∧
        ∀ q ∈ s.providers, p.priority ≤ q.priority := by
  have hsorted : List.Sorted priorityLE (getAvailableProviders s) :=
    List.sorted_insertionSort priorityLE s.providers
  have hperm : (getAvailableProviders s).Perm s.providers :=
    List.perm_insertionSort priorityLE s.providers
  refine ⟨hsorted, hperm, ?_⟩
  cases hl : getAvailableProviders s with
  | nil =>
    rw [hl] at hperm
    exact absurd hperm.symm.eq_nil hne
  | cons a rest =>
    have hamem : a ∈ s.providers := by
      have : a ∈ getAvailableProviders s := by rw [hl]; exact List.mem_cons_self a rest
      simpa [getAvailableProviders] using this
    refine ⟨a, ?_, rfl, ?_⟩
    · have hniE : (getAvailableProviders s).isEmpty = false := by rw [hl]; rfl
      rw [sp_plain s now req h1 h2 hniE, fa_inWindow now _ s hw, hl,
        List.find?_cons_of_pos _ (by simpa using hfree a hamem)]
    · intro q hq
      have hq' : q ∈ getAvailableProviders s := by
        simpa [getAvailableProviders] using hq
      rw [hl] at hq'
      rcases List.mem_cons.mp hq' with rfl | hq''
      · exact Nat.le_refl _
      · exact (List.sorted_cons.mp (hl ▸ hsorted)).1 q hq''

/-- C7 witness: the idle three-provider registry selects Claude
(priority 1). -/
theorem C7_lowest_priority_witness :
    List.Sorted priorityLE (getAvailableProviders threeProviderState) ∧
      (getAvailableProviders threeProviderState).Perm threeProviderState.providers ∧
      ∃ p, selectProvider threeProviderState 1000 plainRequest =
          (some p, threeProviderState) ∧
        (getAvailableProviders threeProviderState).head? = some p ∧
        ∀ q ∈ threeProviderState.providers, p.priority ≤ q.priority :=
  C7_lowest_priority_selected threeProviderState 1000 plainRequest (by decide)
    rfl rfl (by decide) (by decide)

/-- C8: the fallback provider always lies strictly after the failed
provider's index in the priority-sorted enabled list; consequently, when
the failed provider has no successor there (for instance the
lowest-priority provider chosen via preferredProvider), `generate`
rethrows the failure having attempted only that provider, even though
earlier higher-priority providers are enabled and within their limits. -/
theorem C8_fallback_strictly_later
    (s : OrchestratorState) (now : Nat) (cur fb : LLMProvider)
    (i : Nat) (s' : OrchestratorState)
    (invoke : LLMProvider → LLMRequest → Except String String)
    (req : LLMRequest) (p : LLMProvider) (s1 : OrchestratorState) (e : String) :
    ((getAvailableProviders s).findIdx? (fun q => q.name == cur.name) = some i →
      getFallbackProvider s now cur = (some fb, s') →
      fb ∈ (getAvailableProviders s).drop (i + 1)) ∧
    (selectProvider s now req = (some p, s1) →
      invoke p req = Except.error e →
      (getFallbackProvider (recordRequest s1 p) now p).1 = none →
      (generate invoke s now req).outcome =
          Except.error (GenError.invocationError e) ∧
        (generate invoke s now req).attempted = [p.name]) := by
  constructor
  · intro hidx h
    exact gfp_some_later s now cur i fb s' hidx h
  · intro hsel hinv hfb
    unfold generate
    rw [hsel]
    dsimp only
    rw [hinv]
    dsimp only
    rcases hg : getFallbackProvider (recordRequest s1 p) now p with ⟨o, st⟩
    rw [hg] at hfb
    dsimp only at hfb
    subst hfb
    exact ⟨rfl, rfl⟩

/-- C8 witness: over Claude + TogetherAI, the fallback for Claude is
TogetherAI (strictly later), and when the preferred TogetherAI (last in
priority order) fails, `generate` rethrows after attempting only
TogetherAI although idle Claude is enabled and within its limit. -/
theorem C8_fallback_witness :
    togetherAIConfig ∈ (getAvailableProviders claudeTogetherState).drop (0 + 1) ∧
      (generate alwaysFail claudeTogetherState 1000 preferTogetherRequest).outcome =
          Except.error (GenError.invocationError "boom") ∧
        (generate alwaysFail claudeTogetherState 1000 preferTogetherRequest).attempted =
          ["TogetherAI"] := by
  have h1 := (C8_fallback_strictly_later claudeTogetherState 1000 claudeConfig
    togetherAIConfig 0 claudeTogetherState alwaysFail preferTogetherRequest
    togetherAIConfig claudeTogetherState "boom").1 rfl rfl
  have h2 := (C8_fallback_strictly_later claudeTogetherState 1000 claudeConfig
    togetherAIConfig 0 claudeTogetherState alwaysFail preferTogetherRequest
    togetherAIConfig claudeTogetherState "boom").2 rfl rfl rfl
  exact ⟨h1, h2⟩

/-- C9: fallback invocations are never charged: after a `generate` call in
the current window whose first invocation failed and that found a fallback,
only the originally selected provider's count has grown, by exactly one;
every other provider's count — the fallback's in particular — is
unchanged. -/
theorem C9_fallback_not_charged
    (invoke : LLMProvider → LLMRequest → Except String String)
    (s : OrchestratorState) (now : Nat) (req : LLMRequest)
    (p fb : LLMProvider) (s1 : OrchestratorState) (e : String)
    (hw : now - s.lastReset ≤ 60000)
    (hsel : selectProvider s now req = (some p, s1))
    (_hinv : invoke p req = Except.error e)
    (_hfb : (getFallbackProvider (recordRequest s1 p) now p).1 = some fb) :
    (generate invoke s now req).state.requestCounts p.name =
        s.requestCounts p.name + 1 ∧
      (∀ n, n ≠ p.name →
        (generate invoke s now req).state.requestCounts n = s.requestCounts n) ∧
      (fb.name ≠ p.name →
        (generate invoke s now req).state.requestCounts fb.name =
          s.requestCounts fb.name) := by
  have hs1 : s1 = s := by
    have h := sp_inWindow s now req hw
    rw [hsel] at h
    exact h
  rw [generate_state invoke s now req p s1 hsel, hs1]
  exact ⟨recordRequest_name s p, fun n hn => recordRequest_other s p n hn,
    fun hn => recordRequest_other s p fb.name hn⟩

/-- C9 witness: falling back from Claude to OpenAI charges Claude once and
leaves OpenAI's count at zero. -/
theorem C9_fallback_not_charged_witness :
    (generate alwaysFail threeProviderState 1000 plainRequest).state.requestCounts
        "Claude" = 1 ∧
      (generate alwaysFail threeProviderState 1000 plainRequest).state.requestCounts
        "OpenAI" = 0 := by
  have h := C9_fallback_not_charged alwaysFail threeProviderState 1000 plainRequest
    claudeConfig openAIConfig threeProviderState "boom" (by decide) rfl rfl rfl
  exact ⟨h.1, h.2.2 (by decide)⟩

/-- C10: the preferred-provider path checks only registration and rate
limit, never capabilities: whenever the preferred provider is registered
and within its rate limit it is returned, for an arbitrary
requiredCapabilities field — including sets it does not satisfy. -/
theorem C10_preferred_bypasses_capabilities
    (s : OrchestratorState) (now : Nat) (req : LLMRequest) (p : LLMProvider)
    (h1 : hasPreferred req = true)
    (h2 : providersGet s (req.preferredProvider.getD "") = some p)
    (h3 : (isWithinRateLimit s now p).1 = true) :
    selectProvider s now req = (some p, (isWithinRateLimit s now p).2) :=
  sp_preferred s now req p h1 h2 h3

/-- C10 witness: a request preferring Claude and requiring "vision" is
routed to Claude although Claude's capability set lacks "vision". -/
theorem C10_preferred_bypasses_witness :
    selectProvider threeProviderState 1000 preferClaudeVisionRequest =
        (some claudeConfig, threeProviderState) ∧
      claudeConfig.capabilities.contains "vision" = false :=
  ⟨C10_preferred_bypasses_capabilities threeProviderState 1000
      preferClaudeVisionRequest claudeConfig rfl rfl rfl, rfl⟩

end Ulysses
